import Mathlib

/-!
Verification of the multi-timeframe liquidity-pattern pipeline
(`algorithmic` repository) against its natural-language specification.

The repository ships the design documents and phase reports of the pipeline
(`PHASE2_COMPLETE.md`, `POLISH_COMPLETION_SUMMARY.md`, the clock-skew
guardrail summary, `configs/base.yaml`, `docs/quant_algo_design.md`, ...);
the Python modules themselves (`core/strategy/aggregator.py`,
`core/strategy/pool_registry.py`, `core/strategy/pool_models.py`,
`core/indicators/atr.py`, `core/strategy/signal_candidate.py`) are not part
of the snapshot.  Where a definition below embeds behaviour that is only
described - not quoted - by those documents, its doc comment starts with
`Modelled from the spec:` and names the missing module.  The two code
excerpts that the documents do quote verbatim (the `FSMGuards.volume_ok`
guard and the ATR floor clamp) are embedded directly from those excerpts.

Prices and volumes are embedded as exact rationals, timestamps as Unix
seconds (UTC).
-/

/-- OHLCV bar (`Candle` in `core/entities`).  Field set from the data model:
`ts` (UTC instant, seconds), open/high/low/close prices, volume.  `open_`
stands for the source's `open`, which Lean reserves. -/
structure Candle where
  ts : Nat
  open_ : ℚ
  high : ℚ
  low : ℚ
  close : ℚ
  volume : ℚ
deriving DecidableEq

/-- Modelled from the spec: `OutOfOrderPolicy` enum of the aggregator
(clock-skew guardrail summary): `DROP` silently ignores, `RAISE` throws
`ClockSkewError`, `RECALC` processes anyway. -/
inductive OutOfOrderPolicy where
  | drop
  | raise
  | recalc
deriving DecidableEq

/-- Modelled from the spec: `ClockSkewError` carries the offending bar's
timestamp and the last accepted timestamp (`ClockSkew{bar_ts, last_ts}`). -/
structure ClockSkewError where
  barTs : Nat
  lastTs : Nat
deriving DecidableEq

/-- Bucket id of a timestamp: `epoch_minutes(ts) / minutes(tf)`
(`core/strategy/timeframe.py`, epoch-minute division). -/
def bucketId (tfMinutes : Nat) (ts : Nat) : Nat :=
  ts / 60 / tfMinutes

/-- Start timestamp of a bucket: `bucket_id * minutes(tf)` expressed in
Unix seconds. -/
def bucketStartTs (tfMinutes : Nat) (b : Nat) : Nat :=
  b * tfMinutes * 60

/-- In-progress OHLCV accumulator of the aggregator's current bucket
(`{bucket_id, open, high, low, close, volume}` per the design). -/
structure OhlcvAcc where
  open_ : ℚ
  high : ℚ
  low : ℚ
  close : ℚ
  volume : ℚ
deriving DecidableEq

/-- Seed the accumulator from the first base bar of a bucket. -/
def initAcc (bar : Candle) : OhlcvAcc :=
  ⟨bar.open_, bar.high, bar.low, bar.close, bar.volume⟩

/-- Fold one further base bar into the accumulator: high is the running max,
low the running min, close the latest close, volume the running sum. -/
def addBar (a : OhlcvAcc) (bar : Candle) : OhlcvAcc :=
  ⟨a.open_, max a.high bar.high, min a.low bar.low, bar.close, a.volume + bar.volume⟩

/-- Accumulator after folding the base bars `f :: g` of one bucket. -/
def accOf (f : Candle) (g : List Candle) : OhlcvAcc :=
  g.foldl addBar (initAcc f)

/-- Closed higher-timeframe bar produced from a finished bucket: its
timestamp is the bucket start. -/
def finalizeBucket (tfMinutes : Nat) (b : Nat) (a : OhlcvAcc) : Candle :=
  ⟨bucketStartTs tfMinutes b, a.open_, a.high, a.low, a.close, a.volume⟩

/-- Modelled from the spec: state of `TimeAggregator`
(`core/strategy/aggregator.py`): the target timeframe in minutes, the
clock-skew guardrail configuration (`out_of_order_policy`,
`enable_strict_ordering`), the in-progress bucket (id and accumulator) and
the last accepted timestamp.  The future-bar bound
(`max_clock_skew_seconds`) compares against an external wall clock and is
outside this model. -/
structure TimeAggregator where
  tfMinutes : Nat
  outOfOrderPolicy : OutOfOrderPolicy
  enableStrictOrdering : Bool
  current : Option (Nat × OhlcvAcc)
  lastTs : Option Nat
deriving DecidableEq

/-- Handling of a base bar whose bucket id is below the in-progress bucket:
`drop` silently ignores it, `raise` fails with `ClockSkewError` (`recalc`
re-processing is left unspecified by the spec and is modelled as ignore). -/
def TimeAggregator.bucketRegression (s : TimeAggregator) (bar : Candle) :
    Except ClockSkewError (TimeAggregator × List Candle) :=
  match s.outOfOrderPolicy with
  | .raise => Except.error ⟨bar.ts, s.lastTs.getD 0⟩
  | _ => Except.ok (s, [])

/-- Core bucket roll-up of `update`, after the ordering guardrail: a bar of
the in-progress bucket is folded in; a bar of a later bucket closes and
emits the in-progress bucket and starts a new one; a bar of an earlier
bucket is handled by `bucketRegression`. -/
def TimeAggregator.updateCore (s : TimeAggregator) (bar : Candle) :
    Except ClockSkewError (TimeAggregator × List Candle) :=
  match s.current with
  | none =>
      Except.ok
        ({ s with
            current := some (bucketId s.tfMinutes bar.ts, initAcc bar)
            lastTs := some bar.ts },
          [])
  | some (cb, acc) =>
      if bucketId s.tfMinutes bar.ts = cb then
        Except.ok ({ s with current := some (cb, addBar acc bar), lastTs := some bar.ts }, [])
      else if bucketId s.tfMinutes bar.ts < cb then
        s.bucketRegression bar
      else
        Except.ok
          ({ s with
              current := some (bucketId s.tfMinutes bar.ts, initAcc bar)
              lastTs := some bar.ts },
            [finalizeBucket s.tfMinutes cb acc])

/-- Modelled from the spec: `TimeAggregator.update(bar)`.  With strict
ordering enabled, a bar older than the last accepted timestamp triggers the
out-of-order policy: `drop` returns no bars and leaves the state untouched,
`raise` fails with `ClockSkewError`, `recalc` processes the bar anyway.
Otherwise the bar is rolled into the bucket accumulator and zero or one
closed higher-timeframe bars are returned. -/
def TimeAggregator.update (s : TimeAggregator) (bar : Candle) :
    Except ClockSkewError (TimeAggregator × List Candle) :=
  match s.lastTs with
  | some t =>
      if s.enableStrictOrdering = true ∧ bar.ts < t then
        match s.outOfOrderPolicy with
        | .drop => Except.ok (s, [])
        | .raise => Except.error ⟨bar.ts, t⟩
        | .recalc => s.updateCore bar
      else
        s.updateCore bar
  | none => s.updateCore bar

/-- `flush()` of the aggregator: the incomplete in-progress bucket is never
emitted, so flushing returns the empty list (look-ahead prevention,
`PHASE2_COMPLETE.md`). -/
def TimeAggregator.flush (_ : TimeAggregator) : List Candle :=
  []

/-- A fresh single-timeframe aggregator. -/
def freshAgg (tfMinutes : Nat) (policy : OutOfOrderPolicy) (strict : Bool) : TimeAggregator :=
  ⟨tfMinutes, policy, strict, none, none⟩

/-- Feed a list of base bars through the aggregator, concatenating the
closed bars emitted by each `update`. -/
def runAggAux : TimeAggregator → List Candle →
    Except ClockSkewError (TimeAggregator × List Candle)
  | s, [] => Except.ok (s, [])
  | s, bar :: rest =>
      match s.update bar with
      | Except.error e => Except.error e
      | Except.ok (s1, out1) =>
          match runAggAux s1 rest with
          | Except.error e => Except.error e
          | Except.ok (s2, out2) => Except.ok (s2, out1 ++ out2)

/-- Run a bar stream from a fresh aggregator. -/
def runAgg (s : TimeAggregator) (bars : List Candle) :
    Except ClockSkewError (TimeAggregator × List Candle) :=
  runAggAux s bars

/-- C1: the time aggregator emits a closed higher-timeframe bar only when a
base bar arrives whose bucket id differs from the in-progress bucket, and
`flush()` always returns an empty sequence. -/
theorem agg_emits_only_on_bucket_change :
    (∀ (s : TimeAggregator) (bar : Candle) (s' : TimeAggregator) (out : List Candle),
      s.update bar = Except.ok (s', out) → out ≠ [] →
        ∃ cb acc, s.current = some (cb, acc) ∧ bucketId s.tfMinutes bar.ts ≠ cb) ∧
    (∀ s : TimeAggregator, s.flush = []) := by
  constructor
  · intro s bar s' out hup hne
    have hreg : s.bucketRegression bar = Except.ok (s', out) → out = [] := by
      intro h
      unfold TimeAggregator.bucketRegression at h
      split at h
      · simp at h
      · simp only [Except.ok.injEq, Prod.mk.injEq] at h
        exact h.2.symm
    have hcore : s.updateCore bar = Except.ok (s', out) →
        ∃ cb acc, s.current = some (cb, acc) ∧ bucketId s.tfMinutes bar.ts ≠ cb := by
      intro h
      unfold TimeAggregator.updateCore at h
      split at h
      · simp only [Except.ok.injEq, Prod.mk.injEq] at h
        exact absurd h.2.symm hne
      · rename_i cb acc hsome
        split at h
        · simp only [Except.ok.injEq, Prod.mk.injEq] at h
          exact absurd h.2.symm hne
        · rename_i hneq
          split at h
          · exact absurd (hreg h) hne
          · exact ⟨cb, acc, hsome, hneq⟩
    unfold TimeAggregator.update at hup
    split at hup
    · split at hup
      · split at hup
        · simp only [Except.ok.injEq, Prod.mk.injEq] at hup
          exact absurd hup.2.symm hne
        · simp at hup
        · exact hcore hup
      · exact hcore hup
    · exact hcore hup
  · intro s; rfl

/-- Concrete aggregator state used to witness C1: an H1 bucket 0 in
progress, last accepted timestamp 120. -/
def c1State : TimeAggregator :=
  ⟨60, .drop, true, some (0, ⟨1, 5, 0, 2, 10⟩), some 120⟩

/-- Base bar of H1 bucket 1 (ts 3600), closing c1State's bucket 0. -/
def c1Bar : Candle := ⟨3600, 3, 4, 2, 3, 7⟩

/-- Witness for C1 at a concrete emitting call. -/
theorem agg_emits_only_on_bucket_change_witness :
    (∃ cb acc, c1State.current = some (cb, acc) ∧
      bucketId c1State.tfMinutes c1Bar.ts ≠ cb) ∧ c1State.flush = [] :=
  ⟨agg_emits_only_on_bucket_change.1 c1State c1Bar
      ⟨60, .drop, true, some (1, initAcc c1Bar), some 3600⟩
      [finalizeBucket 60 0 ⟨1, 5, 0, 2, 10⟩] rfl (by simp),
    agg_emits_only_on_bucket_change.2 c1State⟩

/-- C4 (amended): with strict ordering enabled (the default configuration),
a base bar older than the last accepted timestamp is silently ignored with
all aggregator state unchanged under the `drop` policy, and fails with
`ClockSkewError{bar_ts, last_ts}` under the `raise` policy. -/
theorem out_of_order_strict_policies (s : TimeAggregator) (bar : Candle) (t : Nat)
    (hstrict : s.enableStrictOrdering = true) (hlast : s.lastTs = some t)
    (hlt : bar.ts < t) :
    (s.outOfOrderPolicy = OutOfOrderPolicy.drop → s.update bar = Except.ok (s, [])) ∧
    (s.outOfOrderPolicy = OutOfOrderPolicy.raise →
      s.update bar = Except.error ⟨bar.ts, t⟩) := by
  have hup : s.update bar =
      match s.outOfOrderPolicy with
      | .drop => Except.ok (s, [])
      | .raise => Except.error ⟨bar.ts, t⟩
      | .recalc => s.updateCore bar := by
    unfold TimeAggregator.update
    split
    · rename_i t' ht'
      rw [hlast] at ht'
      cases ht'
      rw [if_pos ⟨hstrict, hlt⟩]
    · rename_i ht'
      rw [hlast] at ht'
      cases ht'
  constructor <;> intro hp <;> rw [hup, hp]

/-- Scenario S1 base bar `i`: ts `2024-01-01T10:00:00Z + i*60s` (Unix
1704103200 + 60 i), close `100 + 0.01 i`, volume `1000 + i`; only close and
volume are prescribed by the scenario, so the bar is taken flat
(open = high = low = close). -/
def s1bar (i : Nat) : Candle :=
  ⟨1704103200 + 60 * i, mkRat (10000 + i) 100, mkRat (10000 + i) 100,
    mkRat (10000 + i) 100, mkRat (10000 + i) 100, mkRat (1000 + i) 1⟩

/-- The 121 base bars of scenario S1. -/
def s1bars : List Candle := (List.range 121).map s1bar

/-- Closed H1 bars emitted for scenario S1. -/
def s1out : List Candle :=
  match runAgg (freshAgg 60 .drop true) s1bars with
  | Except.ok (_, out) => out
  | Except.error _ => []

/-- Processing a concatenated stream equals processing the two halves in
sequence, threading the state and concatenating emissions. -/
lemma runAggAux_append (s : TimeAggregator) (l1 l2 : List Candle) :
    runAggAux s (l1 ++ l2) =
      match runAggAux s l1 with
      | Except.error e => Except.error e
      | Except.ok (s1, o1) =>
          match runAggAux s1 l2 with
          | Except.error e => Except.error e
          | Except.ok (s2, o2) => Except.ok (s2, o1 ++ o2) := by
  induction l1 generalizing s with
  | nil =>
      simp only [List.nil_append, runAggAux]
      cases runAggAux s l2 with
      | error e => rfl
      | ok p => cases p; simp
  | cons bar l1 ih =>
      simp only [List.cons_append, runAggAux]
      cases s.update bar with
      | error e => rfl
      | ok p =>
          cases p with
          | mk s1 o1 =>
              dsimp only
              rw [show l1.append l2 = l1 ++ l2 from rfl, ih s1]
              cases runAggAux s1 l1 with
              | error e => rfl
              | ok q =>
                  cases q with
                  | mk s2 o2 =>
                      dsimp only
                      cases runAggAux s2 l2 with
                      | error e => rfl
                      | ok r => cases r; simp

/-- A chunk of the S1 stream: bars `a, a+1, ..., a+n-1`. -/
def s1chunk (a n : Nat) : List Candle := (List.range' a n).map s1bar

lemma s1bars_chunks :
    s1bars = s1chunk 0 31 ++ (s1chunk 31 30 ++ (s1chunk 61 30 ++ s1chunk 91 30)) := by
  with_unfolding_all rfl

/-- Aggregator state after the first 31 bars of S1 (bucket 473362 in
progress). -/
def s1state1 : TimeAggregator :=
  ⟨60, .drop, true,
    some (473362, ⟨100, mkRat 1003 10, 100, mkRat 1003 10, 31465⟩), some 1704105000⟩

/-- Aggregator state after 61 bars of S1 (bucket 473363 just opened). -/
def s1state2 : TimeAggregator :=
  ⟨60, .drop, true,
    some (473363, ⟨mkRat 503 5, mkRat 503 5, mkRat 503 5, mkRat 503 5, 1060⟩),
    some 1704106800⟩

/-- Aggregator state after 91 bars of S1. -/
def s1state3 : TimeAggregator :=
  ⟨60, .drop, true,
    some (473363, ⟨mkRat 503 5, mkRat 1009 10, mkRat 503 5, mkRat 1009 10, 33325⟩),
    some 1704108600⟩

/-- Aggregator state after all 121 bars of S1. -/
def s1state4 : TimeAggregator :=
  ⟨60, .drop, true,
    some (473364, ⟨mkRat 506 5, mkRat 506 5, mkRat 506 5, mkRat 506 5, 1120⟩),
    some 1704110400⟩

/-- First closed H1 bar of S1. -/
def s1c1 : Candle := ⟨1704103200, 100, mkRat 10059 100, 100, mkRat 10059 100, 61770⟩

/-- Second closed H1 bar of S1. -/
def s1c2 : Candle :=
  ⟨1704106800, mkRat 503 5, mkRat 10119 100, mkRat 503 5, mkRat 10119 100, 65370⟩

set_option maxRecDepth 40000 in
lemma s1run1 : runAggAux (freshAgg 60 .drop true) (s1chunk 0 31) =
    Except.ok (s1state1, []) := by
  with_unfolding_all rfl

set_option maxRecDepth 40000 in
lemma s1run2 : runAggAux s1state1 (s1chunk 31 30) = Except.ok (s1state2, [s1c1]) := by
  with_unfolding_all rfl

set_option maxRecDepth 40000 in
lemma s1run3 : runAggAux s1state2 (s1chunk 61 30) = Except.ok (s1state3, []) := by
  with_unfolding_all rfl

set_option maxRecDepth 40000 in
lemma s1run4 : runAggAux s1state3 (s1chunk 91 30) = Except.ok (s1state4, [s1c2]) := by
  with_unfolding_all rfl

/-- The full S1 run: two closed H1 bars. -/
lemma s1out_eq : s1out = [s1c1, s1c2] := by
  unfold s1out runAgg
  rw [s1bars_chunks, runAggAux_append, s1run1]
  dsimp only
  rw [runAggAux_append, s1run2]
  dsimp only
  rw [runAggAux_append, s1run3]
  dsimp only
  rw [s1run4]
  simp

/-- C3 counterexample: the first closed H1 bar of scenario S1 has volume
61770 (= 1000 + 1001 + ... + 1059), not 63 240, and high 100.59, not
100.60: the 10:00 bucket holds exactly the 60 base bars i = 0..59. -/
theorem s1_first_h1_counterexample :
    s1out.head? = some s1c1 ∧ s1c1.volume = 61770 ∧ ((61770 : ℚ) ≠ 63240) ∧
      s1c1.high = mkRat 10059 100 ∧ mkRat 10059 100 ≠ mkRat 10060 100 :=
  ⟨by rw [s1out_eq]; rfl, rfl, by with_unfolding_all decide, rfl,
    by with_unfolding_all decide⟩

/-- C3 (amended): scenario S1 produces exactly 2 closed H1 bars; the first
has open 100.00, close 100.59 (the close of the 10:59 bar), high 100.59,
low 100.00 and volume 61770 = 1000 + ... + 1059. -/
theorem s1_first_h1_amended :
    s1out = [s1c1, s1c2] ∧ s1out.length = 2 ∧ s1c1.open_ = 100 ∧
      s1c1.close = mkRat 10059 100 ∧ s1c1.high = mkRat 10059 100 ∧
      s1c1.low = 100 ∧ s1c1.volume = 61770 :=
  ⟨s1out_eq, by rw [s1out_eq]; rfl, rfl, rfl, rfl, rfl, rfl⟩

/-- Aggregator state used by the C4 theorems: H1 bucket 0 in progress, last
accepted timestamp 100, `drop` policy, strict ordering disabled. -/
def c4State : TimeAggregator := ⟨60, .drop, false, some (0, ⟨1, 5, 0, 2, 10⟩), some 100⟩

/-- A late base bar: ts 50, older than the last accepted timestamp 100. -/
def c4Bar : Candle := ⟨50, 3, 4, 2, 3, 7⟩

/-- C4 counterexample: with strict ordering disabled (a legal aggregator
configuration), a base bar older than the last accepted timestamp is not
ignored under the `drop` policy - it lands in the in-progress bucket and
mutates the aggregator state. -/
theorem out_of_order_drop_nonstrict_counterexample :
    c4Bar.ts < 100 ∧ c4State.outOfOrderPolicy = OutOfOrderPolicy.drop ∧
      c4State.lastTs = some 100 ∧
      c4State.update c4Bar =
        Except.ok (⟨60, .drop, false, some (0, addBar ⟨1, 5, 0, 2, 10⟩ c4Bar), some 50⟩, []) ∧
      (⟨60, .drop, false, some (0, addBar ⟨1, 5, 0, 2, 10⟩ c4Bar), some 50⟩ : TimeAggregator) ≠
        c4State :=
  ⟨by decide, rfl, rfl, rfl, by with_unfolding_all decide⟩

/-- c4State with strict ordering enabled, `drop` policy. -/
def c4dropState : TimeAggregator := ⟨60, .drop, true, some (0, ⟨1, 5, 0, 2, 10⟩), some 100⟩

/-- c4State with strict ordering enabled, `raise` policy. -/
def c4raiseState : TimeAggregator := ⟨60, .raise, true, some (0, ⟨1, 5, 0, 2, 10⟩), some 100⟩

/-- Witness for the amended C4 at a concrete late bar under both policies. -/
theorem out_of_order_strict_policies_witness :
    c4dropState.update c4Bar = Except.ok (c4dropState, []) ∧
      c4raiseState.update c4Bar = Except.error ⟨50, 100⟩ :=
  ⟨(out_of_order_strict_policies c4dropState c4Bar 100 rfl rfl (by decide)).1 rfl,
    (out_of_order_strict_policies c4raiseState c4Bar 100 rfl rfl (by decide)).2 rfl⟩

/-- Spec-side characterization of a closed higher-timeframe bar `C` against
the base bars `g` of its bucket: open from the first, close from the last,
high the maximum, low the minimum, volume the sum. -/
def OhlcvOf (C : Candle) (g : List Candle) : Prop :=
  g.head?.map Candle.open_ = some C.open_ ∧
  g.getLast?.map Candle.close = some C.close ∧
  C.high ∈ g.map Candle.high ∧ (∀ x ∈ g, x.high ≤ C.high) ∧
  C.low ∈ g.map Candle.low ∧ (∀ x ∈ g, C.low ≤ x.low) ∧
  C.volume = (g.map Candle.volume).sum

instance (C : Candle) (g : List Candle) : Decidable (OhlcvOf C g) := by
  unfold OhlcvOf; infer_instance

lemma foldl_addBar_open (g : List Candle) : ∀ a : OhlcvAcc,
    (g.foldl addBar a).open_ = a.open_ := by
  induction g with
  | nil => intro a; rfl
  | cons x g ih => intro a; exact (ih (addBar a x)).trans rfl

lemma foldl_addBar_close (g : List Candle) : ∀ a : OhlcvAcc,
    (g.foldl addBar a).close = ((g.getLast?).map Candle.close).getD a.close := by
  induction g with
  | nil => intro a; rfl
  | cons x g ih =>
      intro a
      rw [List.foldl_cons, ih (addBar a x)]
      cases g with
      | nil => rfl
      | cons y g' =>
          rw [List.getLast?_cons_cons]
          cases hz : (y :: g').getLast? with
          | none => simp at hz
          | some z => rfl

lemma foldl_addBar_volume (g : List Candle) : ∀ a : OhlcvAcc,
    (g.foldl addBar a).volume = a.volume + (g.map Candle.volume).sum := by
  induction g with
  | nil => intro a; simp
  | cons x g ih =>
      intro a
      rw [List.foldl_cons, ih (addBar a x)]
      show a.volume + x.volume + (g.map Candle.volume).sum = _
      rw [List.map_cons, List.sum_cons, add_assoc]

lemma foldl_addBar_high_le (g : List Candle) : ∀ a : OhlcvAcc,
    a.high ≤ (g.foldl addBar a).high ∧ ∀ x ∈ g, x.high ≤ (g.foldl addBar a).high := by
  induction g with
  | nil => intro a; exact ⟨le_refl _, by simp⟩
  | cons y g ih =>
      intro a
      obtain ⟨h1, h2⟩ := ih (addBar a y)
      refine ⟨le_trans (le_max_left a.high y.high) h1, ?_⟩
      intro x hx
      rcases List.mem_cons.mp hx with rfl | hx
      · exact le_trans (le_max_right a.high x.high) h1
      · exact h2 x hx

lemma foldl_addBar_high_mem (g : List Candle) : ∀ a : OhlcvAcc,
    (g.foldl addBar a).high = a.high ∨ (g.foldl addBar a).high ∈ g.map Candle.high := by
  induction g with
  | nil => intro a; exact Or.inl rfl
  | cons y g ih =>
      intro a
      rcases ih (addBar a y) with h | h
      · rcases max_choice a.high y.high with h' | h'
        · exact Or.inl (h.trans h')
        · refine Or.inr ?_
          rw [List.foldl_cons, h, List.map_cons]
          exact h' ▸ List.mem_cons_self _ _
      · refine Or.inr ?_
        rw [List.foldl_cons, List.map_cons]
        exact List.mem_cons_of_mem _ h

lemma foldl_addBar_low_le (g : List Candle) : ∀ a : OhlcvAcc,
    (g.foldl addBar a).low ≤ a.low ∧ ∀ x ∈ g, (g.foldl addBar a).low ≤ x.low := by
  induction g with
  | nil => intro a; exact ⟨le_refl _, by simp⟩
  | cons y g ih =>
      intro a
      obtain ⟨h1, h2⟩ := ih (addBar a y)
      refine ⟨le_trans h1 (min_le_left a.low y.low), ?_⟩
      intro x hx
      rcases List.mem_cons.mp hx with rfl | hx
      · exact le_trans h1 (min_le_right a.low x.low)
      · exact h2 x hx

lemma foldl_addBar_low_mem (g : List Candle) : ∀ a : OhlcvAcc,
    (g.foldl addBar a).low = a.low ∨ (g.foldl addBar a).low ∈ g.map Candle.low := by
  induction g with
  | nil => intro a; exact Or.inl rfl
  | cons y g ih =>
      intro a
      rcases ih (addBar a y) with h | h
      · rcases min_choice a.low y.low with h' | h'
        · exact Or.inl (h.trans h')
        · refine Or.inr ?_
          rw [List.foldl_cons, h, List.map_cons]
          exact h' ▸ List.mem_cons_self _ _
      · refine Or.inr ?_
        rw [List.foldl_cons, List.map_cons]
        exact List.mem_cons_of_mem _ h

/-- The finalized bar of a bucket satisfies the spec-side OHLCV
characterization over the bucket's base bars. -/
lemma ohlcv_finalize (tfMinutes b : Nat) (f : Candle) (g : List Candle) :
    OhlcvOf (finalizeBucket tfMinutes b (accOf f g)) (f :: g) := by
  unfold OhlcvOf finalizeBucket accOf
  refine ⟨?_, ?_, ?_, ?_, ?_, ?_, ?_⟩
  · show Option.map Candle.open_ (some f) = _
    rw [Option.map_some', foldl_addBar_open g (initAcc f)]
    rfl
  · rw [foldl_addBar_close g (initAcc f)]
    cases g with
    | nil => rfl
    | cons y g' =>
        rw [List.getLast?_cons_cons]
        cases hz : (y :: g').getLast? with
        | none => simp at hz
        | some z => rfl
  · rcases foldl_addBar_high_mem g (initAcc f) with h | h
    · rw [List.map_cons]; exact h ▸ List.mem_cons_self _ _
    · rw [List.map_cons]; exact List.mem_cons_of_mem _ h
  · intro x hx
    rcases List.mem_cons.mp hx with h | hx
    · rw [h]; exact (foldl_addBar_high_le g (initAcc f)).1
    · exact (foldl_addBar_high_le g (initAcc f)).2 x hx
  · rcases foldl_addBar_low_mem g (initAcc f) with h | h
    · rw [List.map_cons]; exact h ▸ List.mem_cons_self _ _
    · rw [List.map_cons]; exact List.mem_cons_of_mem _ h
  · intro x hx
    rcases List.mem_cons.mp hx with h | hx
    · rw [h]; exact (foldl_addBar_low_le g (initAcc f)).1
    · exact (foldl_addBar_low_le g (initAcc f)).2 x hx
  · rw [foldl_addBar_volume g (initAcc f), List.map_cons, List.sum_cons]
    rfl

lemma bucketId_mono (tfMinutes : Nat) {t1 t2 : Nat} (h : t1 ≤ t2) :
    bucketId tfMinutes t1 ≤ bucketId tfMinutes t2 :=
  Nat.div_le_div_right (Nat.div_le_div_right h)

lemma bucketId_bucketStartTs (tfMinutes b : Nat) (h : 0 < tfMinutes) :
    bucketId tfMinutes (bucketStartTs tfMinutes b) = b := by
  unfold bucketId bucketStartTs
  rw [Nat.mul_div_cancel _ (by norm_num : (0 : Nat) < 60)]
  exact Nat.mul_div_cancel _ h

lemma getLastD_mem : ∀ (l : List Candle) (d : Candle), (l.getLast?.getD d) ∈ d :: l := by
  intro l
  induction l with
  | nil => intro d; simp
  | cons y l ih =>
      intro d
      have h : ((y :: l).getLast?.getD d) = (l.getLast?.getD y) := by
        cases l with
        | nil => rfl
        | cons z l' =>
            rw [List.getLast?_cons_cons]
            cases hz : (z :: l').getLast? with
            | none => simp at hz
            | some w => rfl
      rw [h]
      exact List.mem_cons_of_mem d (ih y)

lemma accOf_concat (f : Candle) (g : List Candle) (bar : Candle) :
    accOf f (g ++ [bar]) = addBar (accOf f g) bar := by
  unfold accOf
  rw [List.foldl_append]
  rfl

/-- Invariant of the aggregator run: starting from a state whose in-progress
bucket accumulates exactly the bars `f :: g` (all of one bucket), every bar
emitted while processing the chronologically ordered remainder satisfies the
spec-side OHLCV characterization over exactly the base bars of its bucket. -/
lemma runAggAux_inv (tfMinutes : Nat) (htf : 0 < tfMinutes) :
    ∀ (rest : List Candle) (s : TimeAggregator) (f : Candle) (g : List Candle),
      s.tfMinutes = tfMinutes →
      s.current = some (bucketId tfMinutes f.ts, accOf f g) →
      s.lastTs = some ((g.getLast?.getD f).ts) →
      (∀ x ∈ g, bucketId tfMinutes x.ts = bucketId tfMinutes f.ts) →
      List.Pairwise (fun a b => a.ts ≤ b.ts) (f :: (g ++ rest)) →
      ∃ s' out, runAggAux s rest = Except.ok (s', out) ∧
        ∀ C ∈ out, bucketId tfMinutes f.ts ≤ bucketId tfMinutes C.ts ∧
          OhlcvOf C ((f :: (g ++ rest)).filter
            (fun x => bucketId tfMinutes x.ts == bucketId tfMinutes C.ts)) := by
  intro rest
  induction rest with
  | nil =>
      intro s f g hstf hcur hlast hbuck hsort
      exact ⟨s, [], rfl, by simp⟩
  | cons bar rest ih =>
      intro s f g hstf hcur hlast hbuck hsort
      have hsplit : List.Pairwise (fun a b : Candle => a.ts ≤ b.ts)
          ((f :: g) ++ (bar :: rest)) := by simpa using hsort
      obtain ⟨hp1, hp2, hcross⟩ := List.pairwise_append.mp hsplit
      have hlastle : (g.getLast?.getD f).ts ≤ bar.ts :=
        hcross _ (getLastD_mem g f) bar (List.mem_cons_self _ _)
      have hub : s.update bar = s.updateCore bar := by
        unfold TimeAggregator.update
        split
        · rename_i t ht
          rw [hlast] at ht
          injection ht with ht
          subst ht
          rw [if_neg]
          intro hcond
          exact absurd hcond.2 (not_lt.mpr hlastle)
        · rfl
      have hfb : f.ts ≤ bar.ts :=
        hcross f (List.mem_cons_self _ _) bar (List.mem_cons_self _ _)
      have hble : bucketId tfMinutes f.ts ≤ bucketId tfMinutes bar.ts :=
        bucketId_mono tfMinutes hfb
      by_cases hb : bucketId tfMinutes bar.ts = bucketId tfMinutes f.ts
      · -- same bucket: fold the bar into the accumulator
        have hcoreeq : s.updateCore bar = Except.ok
            ({ s with
                  current := some (bucketId tfMinutes f.ts, accOf f (g ++ [bar])),
                  lastTs := some bar.ts },
              []) := by
          simp only [TimeAggregator.updateCore, hcur, hstf, hb, accOf_concat,
            eq_self_iff_true, if_true]
        obtain ⟨s', out, hrun, hprops⟩ := ih
          ({ s with
                current := some (bucketId tfMinutes f.ts, accOf f (g ++ [bar])),
                lastTs := some bar.ts })
          f (g ++ [bar]) hstf rfl
          (by simp [List.getLast?_concat])
          (by intro x hx
              rcases List.mem_append.mp hx with hx | hx
              · exact hbuck x hx
              · rw [List.mem_singleton.mp hx]; exact hb)
          (by simpa [List.append_assoc] using hsort)
        refine ⟨s', out, ?_, ?_⟩
        · simp only [runAggAux, hub.trans hcoreeq, hrun]
          simp
        · intro C hC
          obtain ⟨hbound, hohlcv⟩ := hprops C hC
          refine ⟨hbound, ?_⟩
          have hre : (f :: ((g ++ [bar]) ++ rest)) = (f :: (g ++ bar :: rest)) := by simp
          rwa [hre] at hohlcv
      · -- new bucket: emit the finished bucket, start a fresh one
        have hlt : bucketId tfMinutes f.ts < bucketId tfMinutes bar.ts :=
          lt_of_le_of_ne hble (fun h => hb h.symm)
        have hcoreeq : s.updateCore bar = Except.ok
            ({ s with
                  current := some (bucketId tfMinutes bar.ts, initAcc bar),
                  lastTs := some bar.ts },
              [finalizeBucket tfMinutes (bucketId tfMinutes f.ts) (accOf f g)]) := by
          simp only [TimeAggregator.updateCore, hcur, hstf]
          rw [if_neg hb, if_neg (not_lt.mpr hble)]
        obtain ⟨s', out, hrun, hprops⟩ := ih
          ({ s with
                current := some (bucketId tfMinutes bar.ts, initAcc bar),
                lastTs := some bar.ts })
          bar [] hstf rfl rfl (by simp)
          (by simpa using hp2)
        have hrest_bucket : ∀ x ∈ bar :: rest,
            bucketId tfMinutes bar.ts ≤ bucketId tfMinutes x.ts := by
          intro x hx
          rcases List.mem_cons.mp hx with h | hx
          · rw [h]
          · exact bucketId_mono tfMinutes ((List.pairwise_cons.mp hp2).1 x hx)
        refine ⟨s', finalizeBucket tfMinutes (bucketId tfMinutes f.ts) (accOf f g) :: out,
          ?_, ?_⟩
        · simp only [runAggAux, hub.trans hcoreeq, hrun]
          simp
        · intro C hC
          rcases List.mem_cons.mp hC with hCeq | hC
          · subst hCeq
            have hCts : bucketId tfMinutes
                (finalizeBucket tfMinutes (bucketId tfMinutes f.ts) (accOf f g)).ts =
                bucketId tfMinutes f.ts := by
              show bucketId tfMinutes (bucketStartTs tfMinutes (bucketId tfMinutes f.ts)) = _
              exact bucketId_bucketStartTs _ _ htf
            rw [hCts]
            refine ⟨le_refl _, ?_⟩
            have hfilter : (f :: (g ++ bar :: rest)).filter
                (fun x => bucketId tfMinutes x.ts == bucketId tfMinutes f.ts) = f :: g := by
              rw [List.filter_cons_of_pos (by simp)]
              rw [List.filter_append]
              have h1 : g.filter
                  (fun x => bucketId tfMinutes x.ts == bucketId tfMinutes f.ts) = g :=
                List.filter_eq_self.mpr (fun x hx => by simp [hbuck x hx])
              have h2 : (bar :: rest).filter
                  (fun x => bucketId tfMinutes x.ts == bucketId tfMinutes f.ts) = [] := by
                apply List.filter_eq_nil_iff.mpr
                intro x hx
                have := lt_of_lt_of_le hlt (hrest_bucket x hx)
                simp
                exact (ne_of_lt this).symm
              rw [h1, h2, List.append_nil]
            rw [hfilter]
            exact ohlcv_finalize tfMinutes (bucketId tfMinutes f.ts) f g
          · obtain ⟨hbound2, hohlcv2⟩ := hprops C hC
            refine ⟨le_trans (le_of_lt hlt) hbound2, ?_⟩
            have hCgt : bucketId tfMinutes f.ts < bucketId tfMinutes C.ts :=
              lt_of_lt_of_le hlt hbound2
            have hfilter : (f :: (g ++ bar :: rest)).filter
                (fun x => bucketId tfMinutes x.ts == bucketId tfMinutes C.ts) =
                (bar :: rest).filter
                  (fun x => bucketId tfMinutes x.ts == bucketId tfMinutes C.ts) := by
              rw [show f :: (g ++ bar :: rest) = (f :: g) ++ (bar :: rest) from rfl,
                List.filter_append]
              have h0 : (f :: g).filter
                  (fun x => bucketId tfMinutes x.ts == bucketId tfMinutes C.ts) = [] := by
                apply List.filter_eq_nil_iff.mpr
                intro x hx
                rcases List.mem_cons.mp hx with h | hx
                · rw [h]
                  simp
                  exact ne_of_lt hCgt
                · simp [hbuck x hx]
                  exact ne_of_lt hCgt
              rw [h0, List.nil_append]
            rw [hfilter]
            simpa using hohlcv2

/-- C2: every higher-timeframe bar B emitted by the aggregator over a
chronologically ordered base stream has B.open = the open of the first base
bar of B's bucket, B.close = the close of the last, B.high = the maximum
high, B.low = the minimum low, and B.volume = the sum of the volumes, over
exactly the base bars of that bucket. -/
theorem agg_ohlcv_folding (tfMinutes : Nat) (policy : OutOfOrderPolicy) (strict : Bool)
    (htf : 0 < tfMinutes) (bars : List Candle)
    (hsort : List.Pairwise (fun a b => a.ts ≤ b.ts) bars)
    (s' : TimeAggregator) (out : List Candle)
    (hrun : runAgg (freshAgg tfMinutes policy strict) bars = Except.ok (s', out)) :
    ∀ C ∈ out, OhlcvOf C (bars.filter
      (fun x => bucketId tfMinutes x.ts == bucketId tfMinutes C.ts)) := by
  cases bars with
  | nil =>
      unfold runAgg runAggAux at hrun
      simp only [Except.ok.injEq, Prod.mk.injEq] at hrun
      rw [← hrun.2]
      simp
  | cons f rest =>
      have hub : (freshAgg tfMinutes policy strict).update f = Except.ok
          (⟨tfMinutes, policy, strict, some (bucketId tfMinutes f.ts, initAcc f),
            some f.ts⟩, []) := rfl
      obtain ⟨s2, out2, hrun2, hprops⟩ := runAggAux_inv tfMinutes htf rest
        ⟨tfMinutes, policy, strict, some (bucketId tfMinutes f.ts, initAcc f), some f.ts⟩
        f [] rfl rfl rfl (by simp) (by simpa using hsort)
      have hfull : runAgg (freshAgg tfMinutes policy strict) (f :: rest) =
          Except.ok (s2, out2) := by
        unfold runAgg
        simp only [runAggAux, hub, hrun2]
        simp
      rw [hfull] at hrun
      simp only [Except.ok.injEq, Prod.mk.injEq] at hrun
      obtain ⟨h1, h2⟩ := hrun
      subst h2
      intro C hC
      simpa using (hprops C hC).2

/-- Concrete three-bar stream for the C2 witness: two bars of H1 bucket 0,
one of bucket 1. -/
def c2Bars : List Candle := [⟨0, 1, 5, 0, 2, 10⟩, ⟨60, 3, 6, 1, 4, 20⟩, ⟨3600, 2, 2, 2, 2, 5⟩]

/-- The closed H1 bar emitted for bucket 0 of `c2Bars`. -/
def c2Candle : Candle := ⟨0, 1, 6, 0, 4, 30⟩

/-- Final aggregator state after `c2Bars`. -/
def c2End : TimeAggregator := ⟨60, .drop, true, some (1, ⟨2, 2, 2, 2, 5⟩), some 3600⟩

/-- Witness for C2 at the concrete stream `c2Bars`. -/
theorem agg_ohlcv_folding_witness :
    OhlcvOf c2Candle (c2Bars.filter
      (fun x => bucketId 60 x.ts == bucketId 60 c2Candle.ts)) :=
  agg_ohlcv_folding 60 .drop true (by decide) c2Bars (by decide) c2End [c2Candle]
    (by with_unfolding_all rfl) c2Candle (List.mem_singleton.mpr rfl)

/-- Side of a detected pattern / liquidity pool. -/
inductive Side where
  | bullish
  | bearish
deriving DecidableEq

/-- Modelled from the spec: FVG detector configuration (`detectors.fvg` in
`configs/base.yaml`): `min_gap_atr`, `min_gap_pct`, `min_rel_vol`. -/
structure FVGConfig where
  min_gap_atr : ℚ
  min_gap_pct : ℚ
  min_rel_vol : ℚ
deriving DecidableEq

/-- Modelled from the spec: pool candidate event emitted by a detector
(`PoolCandidateEvent{side, top, bottom, tf, created_at, strength}`). -/
structure PoolCandidateEvent where
  side : Side
  top : ℚ
  bottom : ℚ
  tfMinutes : Nat
  createdAt : Nat
  strength : ℚ
deriving DecidableEq

/-- Modelled from the spec: the bullish three-bar rule of
`core/detectors/fvg.py`: bullish FVG when `B3.low > B1.high` and
`B2.close > B2.open`, gap band `[B1.high, B3.low]`; qualification is
disjunctive (`gap_size >= min_gap_atr * atr` OR
`gap_size_pct >= min_gap_pct`, the percentage taken relative to
`B2.close`); the volume filter requires
`B2.volume >= min_rel_vol * volume_sma` and is disabled at
`min_rel_vol = 0`; strength is the normalized gap size capped at 1,
`created_at = B3.ts`. -/
def detectBullishFVG (cfg : FVGConfig) (tfMinutes : Nat) (atr volumeSma : ℚ)
    (b1 b2 b3 : Candle) : Option PoolCandidateEvent :=
  if b3.low > b1.high ∧ b2.close > b2.open_ then
    if b3.low - b1.high ≥ cfg.min_gap_atr * atr ∨
        (b3.low - b1.high) / b2.close ≥ cfg.min_gap_pct then
      if cfg.min_rel_vol = 0 ∨ b2.volume ≥ cfg.min_rel_vol * volumeSma then
        some ⟨Side.bullish, b3.low, b1.high, tfMinutes, b3.ts,
          min 1 ((b3.low - b1.high) / b2.close)⟩
      else none
    else none
  else none

/-- Modelled from the spec: the mirrored bearish three-bar rule: bearish FVG
when `B3.high < B1.low` and `B2.close < B2.open`, gap band
`[B3.high, B1.low]`. -/
def detectBearishFVG (cfg : FVGConfig) (tfMinutes : Nat) (atr volumeSma : ℚ)
    (b1 b2 b3 : Candle) : Option PoolCandidateEvent :=
  if b3.high < b1.low ∧ b2.close < b2.open_ then
    if b1.low - b3.high ≥ cfg.min_gap_atr * atr ∨
        (b1.low - b3.high) / b2.close ≥ cfg.min_gap_pct then
      if cfg.min_rel_vol = 0 ∨ b2.volume ≥ cfg.min_rel_vol * volumeSma then
        some ⟨Side.bearish, b1.low, b3.high, tfMinutes, b3.ts,
          min 1 ((b1.low - b3.high) / b2.close)⟩
      else none
    else none
  else none

/-- Modelled from the spec: one step of the FVG detector over the sliding
three-bar window of closed HTF bars: with the two previous closed bars
retained, a new closed bar completes the window `B1, B2, B3` and may emit a
pool candidate (bullish rule checked first); windows shorter than three
bars emit nothing. -/
def fvgStep (cfg : FVGConfig) (tfMinutes : Nat) (atr volumeSma : ℚ)
    (window : List Candle) (bar : Candle) :
    List Candle × Option PoolCandidateEvent :=
  match window with
  | [b1, b2] =>
      ([b2, bar],
        match detectBullishFVG cfg tfMinutes atr volumeSma b1 b2 bar with
        | some e => some e
        | none => detectBearishFVG cfg tfMinutes atr volumeSma b1 b2 bar)
  | [b] => ([b, bar], none)
  | _ => ([bar], none)

lemma detectBearishFVG_side (cfg : FVGConfig) (tfMinutes : Nat) (atr volumeSma : ℚ)
    (b1 b2 b3 : Candle) (e : PoolCandidateEvent)
    (h : detectBearishFVG cfg tfMinutes atr volumeSma b1 b2 b3 = some e) :
    e.side = Side.bearish := by
  unfold detectBearishFVG at h
  split_ifs at h
  simp only [Option.some.injEq] at h
  rw [← h]

/-- C5: fed the third consecutive closed HTF bar completing the window
(B1, B2, B3), the FVG detector emits a bullish pool-candidate event with
band [B1.high, B3.low] exactly when B3.low > B1.high and B2.close >
B2.open, where qualification is disjunctive (gap_size >= min_gap_atr * atr
OR gap_size_pct >= min_gap_pct) and the volume filter additionally requires
B2.volume >= min_rel_vol * volume_sma (disabled when min_rel_vol = 0). -/
theorem fvg_bullish_characterization (cfg : FVGConfig) (tfMinutes : Nat)
    (atr volumeSma : ℚ) (b1 b2 b3 : Candle) :
    (∃ e, (fvgStep cfg tfMinutes atr volumeSma [b1, b2] b3).2 = some e ∧
        e.side = Side.bullish ∧ e.top = b3.low ∧ e.bottom = b1.high) ↔
      (b1.high < b3.low ∧ b2.open_ < b2.close ∧
        (cfg.min_gap_atr * atr ≤ b3.low - b1.high ∨
          cfg.min_gap_pct ≤ (b3.low - b1.high) / b2.close) ∧
        (cfg.min_rel_vol = 0 ∨ cfg.min_rel_vol * volumeSma ≤ b2.volume)) := by
  constructor
  · rintro ⟨e, he, hside, htop, hbot⟩
    have he' : (match detectBullishFVG cfg tfMinutes atr volumeSma b1 b2 b3 with
        | some e => some e
        | none => detectBearishFVG cfg tfMinutes atr volumeSma b1 b2 b3) = some e := he
    cases hbull : detectBullishFVG cfg tfMinutes atr volumeSma b1 b2 b3 with
    | some e' =>
        rw [hbull] at he'
        simp only [Option.some.injEq] at he'
        subst he'
        unfold detectBullishFVG at hbull
        split_ifs at hbull with h1 h2 h3
        exact ⟨h1.1, h1.2, h2, h3⟩
    | none =>
        rw [hbull] at he'
        exact absurd hside (by
          rw [detectBearishFVG_side cfg tfMinutes atr volumeSma b1 b2 b3 e he']
          simp)
  · rintro ⟨h1, h2, h3, h4⟩
    refine ⟨⟨Side.bullish, b3.low, b1.high, tfMinutes, b3.ts,
      min 1 ((b3.low - b1.high) / b2.close)⟩, ?_, rfl, rfl, rfl⟩
    have hbull : detectBullishFVG cfg tfMinutes atr volumeSma b1 b2 b3 =
        some ⟨Side.bullish, b3.low, b1.high, tfMinutes, b3.ts,
          min 1 ((b3.low - b1.high) / b2.close)⟩ := by
      unfold detectBullishFVG
      rw [if_pos ⟨h1, h2⟩, if_pos h3, if_pos h4]
    show (match detectBullishFVG cfg tfMinutes atr volumeSma b1 b2 b3 with
        | some e => some e
        | none => detectBearishFVG cfg tfMinutes atr volumeSma b1 b2 b3) = _
    rw [hbull]

/-- Modelled from the spec: `PoolState` lifecycle states of
`core/strategy/pool_models.py` (ACTIVE, TOUCHED, EXPIRED, GRACE). -/
inductive PoolState where
  | ACTIVE
  | TOUCHED
  | EXPIRED
  | GRACE
deriving DecidableEq

/-- Modelled from the spec: `LiquidityPool` of
`core/strategy/pool_models.py`: timeframe, price band (top > bottom),
strength, creation and expiry timestamps, lifecycle state. -/
structure Pool where
  timeframe : String
  top : ℚ
  bottom : ℚ
  strength : ℚ
  createdAt : Nat
  expiresAt : Nat
  state : PoolState
deriving DecidableEq

/-- Modelled from the spec: `PoolRegistry` of
`core/strategy/pool_registry.py`, reduced to its primary pool store. -/
structure PoolRegistry where
  pools : List Pool
deriving DecidableEq

/-- Modelled from the spec: the per-pool effect of `advance_time(now)`: a
pool whose scheduled expiry is due (`expires_at <= now`) and which is still
live (ACTIVE or TOUCHED) transitions to EXPIRED; every other pool is left
untouched. -/
def expireStep (now : Nat) (p : Pool) : Pool :=
  if (p.state = PoolState.ACTIVE ∨ p.state = PoolState.TOUCHED) ∧ p.expiresAt ≤ now then
    { p with state := PoolState.EXPIRED }
  else p

/-- Modelled from the spec: `PoolRegistry.advance_time(now)` drives the TTL
wheel and transitions due pools to EXPIRED, each pool independently of all
others. -/
def advance_time (now : Nat) (r : PoolRegistry) : PoolRegistry :=
  ⟨r.pools.map (expireStep now)⟩

/-- Modelled from the spec: `PoolRegistry.purge_before(timestamp)`
(`POLISH_COMPLETION_SUMMARY.md`): selective cleanup that removes only
expired pools (the grace deque) whose creation timestamp is older than the
given time, and preserves active and touched pools regardless of age. -/
def purge_before (t : Nat) (r : PoolRegistry) : PoolRegistry :=
  ⟨r.pools.filter
    (fun p => !(p.state == PoolState.EXPIRED && decide (p.createdAt < t)))⟩

/-- The expired pool used in the C6 counterexample: created at 0, expiry
scheduled at 100. -/
def c6Pool : Pool := ⟨"H1", 101, 100, 1, 0, 100, PoolState.EXPIRED⟩

/-- C6 counterexample: `purge_before 50` removes `c6Pool` although its
expiry timestamp 100 is not earlier than 50 - removal is keyed on the
creation timestamp (0 < 50), not on the expiry timestamp as the claim
states. -/
theorem purge_before_counterexample :
    c6Pool.state = PoolState.EXPIRED ∧ ¬(c6Pool.expiresAt < 50) ∧
      purge_before 50 ⟨[c6Pool]⟩ = ⟨[]⟩ := by
  refine ⟨rfl, by decide, ?_⟩
  with_unfolding_all decide

/-- C6 (amended): `purge_before t` removes exactly the pools in state
EXPIRED whose creation timestamp is earlier than `t`; pools in state
ACTIVE, TOUCHED or GRACE are never removed, regardless of age. -/
theorem purge_before_spec (t : Nat) (r : PoolRegistry) :
    ∀ p : Pool, p ∈ (purge_before t r).pools ↔
      (p ∈ r.pools ∧ ¬(p.state = PoolState.EXPIRED ∧ p.createdAt < t)) := by
  intro p
  unfold purge_before
  rw [List.mem_filter]
  constructor
  · rintro ⟨hp, hcond⟩
    refine ⟨hp, ?_⟩
    intro ⟨hs, hc⟩
    rw [hs] at hcond
    simp [hc] at hcond
  · rintro ⟨hp, hcond⟩
    refine ⟨hp, ?_⟩
    simp only [Bool.not_eq_true', Bool.and_eq_false_iff]
    by_cases hs : p.state = PoolState.EXPIRED
    · right
      have hc : ¬ p.createdAt < t := fun hc => hcond ⟨hs, hc⟩
      simp [hc]
    · left
      simp [hs]

/-- C9: advancing the registry clock expires exactly the pools whose own
expiry is due: for any two registered pools (any timeframes, any -
possibly overlapping - price bands), a `now` past only the first pool's TTL
expires the first and returns the second entirely unchanged (state, band
and scheduled expiry intact). -/
theorem multi_tf_expiry_isolation (p1 p2 : Pool) (now : Nat)
    (h1 : p1.state = PoolState.ACTIVE) (_h2 : p2.state = PoolState.ACTIVE)
    (hdue : p1.expiresAt ≤ now) (hnot : now < p2.expiresAt) :
    (advance_time now ⟨[p1, p2]⟩).pools = [{ p1 with state := PoolState.EXPIRED }, p2] := by
  unfold advance_time expireStep
  simp only [List.map_cons, List.map_nil]
  rw [if_pos ⟨Or.inl h1, hdue⟩, if_neg]
  rintro ⟨-, habs⟩
  exact absurd habs (not_le.mpr hnot)

/-- Pool P1 of scenario S4: H1, band [100, 101], created at 0, ttl 60 s. -/
def c9P1 : Pool := ⟨"H1", 101, 100, 1, 0, 60, PoolState.ACTIVE⟩

/-- Pool P2 of scenario S4: H4, band [100, 101], created at 0, ttl 3600 s. -/
def c9P2 : Pool := ⟨"H4", 101, 100, 1, 0, 3600, PoolState.ACTIVE⟩

/-- Witness for C9 at scenario S4 (advance to t = 61 s): P1 expires, P2 is
untouched and still ACTIVE. -/
theorem multi_tf_expiry_isolation_witness :
    (advance_time 61 ⟨[c9P1, c9P2]⟩).pools = [{ c9P1 with state := PoolState.EXPIRED }, c9P2] :=
  multi_tf_expiry_isolation c9P1 c9P2 61 rfl rfl (by decide) (by decide)

/-- Market regime classification (data model): bull, bear or neutral. -/
inductive Regime where
  | bull
  | bear
  | neutral
deriving DecidableEq

/-- `IndicatorSnapshot` (data model): per-bar values of the incremental
indicator pack. -/
structure IndicatorSnapshot where
  ts : Nat
  ema_fast : ℚ
  ema_slow : ℚ
  atr : ℚ
  volume_sma : ℚ
  regime : Regime
  warmed_up : Bool
deriving DecidableEq

/-- ATR floor constant embedded from the excerpt of
`core/indicators/atr.py`: minimal tick `0.00001`. -/
def atr_floor : ℚ := mkRat 1 100000

/-- State of the incremental ATR(period) indicator of
`core/indicators/atr.py`: the rolling window of true ranges (a deque
bounded by `period`), the previous close, and the stored ATR value once
computed. -/
structure ATRState where
  period : Nat
  true_ranges : List ℚ
  prevClose : Option ℚ
  atrValue : Option ℚ
deriving DecidableEq

/-- True range of a bar given the previous close:
`max(high - low, |high - prev_close|, |low - prev_close|)`; without a
previous close it is the bar's own range. -/
def trueRange (prevClose : Option ℚ) (bar : Candle) : ℚ :=
  match prevClose with
  | none => bar.high - bar.low
  | some pc => max (bar.high - bar.low) (max |bar.high - pc| |bar.low - pc|)

/-- The bounded true-range window: keep only the newest `period` entries. -/
def atrWindow (period : Nat) (l : List ℚ) : List ℚ :=
  if period < l.length then l.drop (l.length - period) else l

/-- `ATR.update`, embedded from the excerpt quoted in the data-quality
report: push the bar's true range into the bounded window; when the window
holds exactly `period` entries, `raw_atr = sum(true_ranges) / period` and
the stored value is `max(raw_atr, atr_floor)` - the ATR floor clamp. -/
def ATR.update (s : ATRState) (bar : Candle) : ATRState :=
  ⟨s.period,
    atrWindow s.period (s.true_ranges ++ [trueRange s.prevClose bar]),
    some bar.close,
    if (atrWindow s.period (s.true_ranges ++ [trueRange s.prevClose bar])).length = s.period
    then some (max
      ((atrWindow s.period (s.true_ranges ++ [trueRange s.prevClose bar])).sum / s.period)
      atr_floor)
    else s.atrValue⟩

/-- C8: the ATR value is clamped as `max(raw_atr, floor)`, so every stored
ATR value - and hence the `atr` of every snapshot built from it - is at
least the floor 1e-5 once ATR is computed, making the downstream
ATRUnderflow / divide-by-near-zero branch unreachable. -/
theorem atr_floor_lower_bound (s : ATRState) (bar : Candle)
    (hs : ∀ v, s.atrValue = some v → atr_floor ≤ v) :
    ∀ v, (ATR.update s bar).atrValue = some v → atr_floor ≤ v := by
  intro v hv
  unfold ATR.update at hv
  dsimp only at hv
  split at hv
  · simp only [Option.some.injEq] at hv
    rw [← hv]
    exact le_max_right _ _
  · exact hs v hv

/-- Fresh ATR(1) state for the C8 witness. -/
def c8State : ATRState := ⟨1, [], none, none⟩

/-- Bar with range 2 for the C8 witness. -/
def c8Bar : Candle := ⟨0, 3, 5, 3, 4, 1⟩

/-- Witness for C8: after one bar the ATR(1) value is 2, respecting the
floor. -/
theorem atr_floor_lower_bound_witness : atr_floor ≤ (2 : ℚ) :=
  atr_floor_lower_bound c8State c8Bar (fun v hv => absurd hv (by simp [c8State]))
    2 (by with_unfolding_all rfl)

/-- `FSMGuards.volume_ok` of `core/strategy/signal_candidate.py`, embedded
from the excerpt quoted in the data-quality report: an explicit
`multiple == 0` check disables the filter; any other non-positive multiple
also falls back to disabled; otherwise the bar's volume must reach
`multiple * volume_sma` (this tail of the method is elided in the excerpt
and follows the spec's filter law). -/
def volume_ok (bar : Candle) (snapshot : IndicatorSnapshot) (multiple : ℚ) : Bool :=
  if multiple = 0 then true
  else if multiple ≤ 0 then true
  else decide (multiple * snapshot.volume_sma ≤ bar.volume)

/-- C10: the volume guard treats every non-positive configured multiple as
"filter disabled", not only zero: `volume_ok` returns true whenever
`multiple ≤ 0`, including negative values. -/
theorem volume_ok_nonpositive_disabled (bar : Candle) (snapshot : IndicatorSnapshot)
    (multiple : ℚ) (h : multiple ≤ 0) :
    volume_ok bar snapshot multiple = true := by
  unfold volume_ok
  by_cases h0 : multiple = 0
  · rw [if_pos h0]
  · rw [if_neg h0, if_pos h]

/-- Zero-volume bar for the C10 witness. -/
def c10Bar : Candle := ⟨0, 1, 1, 1, 1, 0⟩

/-- Snapshot with a positive volume SMA for the C10 witness. -/
def c10Snapshot : IndicatorSnapshot := ⟨0, 1, 1, 1, 50, Regime.bull, true⟩

/-- Witness for C10 at the negative multiple -1: the filter is disabled
even though the bar volume (0) is far below the SMA (50). -/
theorem volume_ok_nonpositive_disabled_witness :
    volume_ok c10Bar c10Snapshot (-1) = true :=
  volume_ok_nonpositive_disabled c10Bar c10Snapshot (-1) (by norm_num)

/-- One byte step of Adler-32: `s1 := (s1 + b) % 65521`,
`s2 := (s2 + s1) % 65521`. -/
def adler32Step (p : Nat × Nat) (b : Nat) : Nat × Nat :=
  ((p.1 + b) % 65521, (p.2 + (p.1 + b) % 65521) % 65521)

/-- `zlib.adler32` over a byte list: fold the step from `(1, 0)` and
combine the sums as `s2 * 65536 + s1`. -/
def adler32 (bytes : List Nat) : Nat :=
  (bytes.foldl adler32Step (1, 0)).2 * 65536 + (bytes.foldl adler32Step (1, 0)).1

/-- Big-endian 8-byte image of a 64-bit value (network byte order, as in
`struct.pack` with `!`). -/
def be64 (n : Nat) : List Nat :=
  [n / 72057594037927936 % 256, n / 281474976710656 % 256, n / 1099511627776 % 256,
    n / 4294967296 % 256, n / 16777216 % 256, n / 65536 % 256, n / 256 % 256, n % 256]

/-- Lower-case hexadecimal digit. -/
def hexDigit (n : Nat) : Char :=
  if n < 10 then Char.ofNat (48 + n) else Char.ofNat (87 + n)

/-- Six-digit lower-case hex rendering of the 24-bit truncation of a hash
(`POLISH_COMPLETION_SUMMARY.md`: 24-bit hash, 6 hex chars). -/
def hex6 (n : Nat) : String :=
  String.mk [hexDigit (n % 16777216 / 1048576), hexDigit (n % 1048576 / 65536),
    hexDigit (n % 65536 / 4096), hexDigit (n % 4096 / 256),
    hexDigit (n % 256 / 16), hexDigit (n % 16)]

/-- Zero-padded decimal rendering with at least `k` digits. -/
def padNat (k n : Nat) : String :=
  String.mk (List.replicate (k - (toString n).length) '0') ++ toString n

/-- Day-of-era within the 400-year Gregorian cycle of a post-epoch day
count (era algorithm intermediate). -/
def dayOfEra (days : Nat) : Nat := (days + 719468) % 146097

/-- Year-of-era within the 400-year cycle. -/
def yearOfEra (days : Nat) : Nat :=
  (dayOfEra days - dayOfEra days / 1460 + dayOfEra days / 36524 -
    dayOfEra days / 146096) / 365

/-- Day-of-year counted from March 1 (era algorithm intermediate). -/
def dayOfYearMar (days : Nat) : Nat :=
  dayOfEra days - (365 * yearOfEra days + yearOfEra days / 4 - yearOfEra days / 100)

/-- Month index counted from March (0 = March, ..., 11 = February). -/
def monthFromMar (days : Nat) : Nat := (5 * dayOfYearMar days + 2) / 153

/-- Civil date (year, month, day) from days since the Unix epoch, by the
standard era-based integer algorithm (valid for post-1970 instants). -/
def civilFromDays (days : Nat) : Nat × Nat × Nat :=
  ((if (if monthFromMar days < 10 then monthFromMar days + 3 else monthFromMar days - 9) ≤ 2
      then 1 else 0) + yearOfEra days + ((days + 719468) / 146097) * 400,
    (if monthFromMar days < 10 then monthFromMar days + 3 else monthFromMar days - 9),
    dayOfYearMar days - (153 * monthFromMar days + 2) / 5 + 1)

/-- ISO-8601 / RFC 3339 rendering of a Unix timestamp in UTC, in the form
produced by `datetime.isoformat()` with an explicit UTC offset. -/
def isoTimestamp (secs : Nat) : String :=
  padNat 4 (civilFromDays (secs / 86400)).1 ++ "-" ++
    padNat 2 (civilFromDays (secs / 86400)).2.1 ++ "-" ++
    padNat 2 (civilFromDays (secs / 86400)).2.2 ++ "T" ++
    padNat 2 (secs % 86400 / 3600) ++ ":" ++
    padNat 2 (secs % 86400 % 3600 / 60) ++ ":" ++
    padNat 2 (secs % 60) ++ "+00:00"

/-- Modelled from the spec: the byte image hashed for the pool id
(`POLISH_COMPLETION_SUMMARY.md`: the hash covers the timeframe, the
timestamp and the two price coordinates as 64-bit doubles in network byte
order via `struct.pack`).  The prices enter as the IEEE-754 bit patterns of
their doubles (`topBits`, `bottomBits`), since only their byte image is
hashed. -/
def packPoolFields (tf : String) (createdAtSecs topBits bottomBits : Nat) : List Nat :=
  tf.toList.map Char.toNat ++ be64 createdAtSecs ++ be64 topBits ++ be64 bottomBits

/-- Modelled from the spec: `generate_pool_id` of
`core/strategy/pool_models.py`: the Phase 4 report's
`tf`-`iso_timestamp`-`hash` format joined with underscores, the hash being
the 24-bit truncation of `zlib.adler32` over the packed fields, rendered as
6 hex chars. -/
def generate_pool_id (tf : String) (createdAtSecs topBits bottomBits : Nat) : String :=
  tf ++ "_" ++ isoTimestamp createdAtSecs ++ "_" ++
    hex6 (adler32 (packPoolFields tf createdAtSecs topBits bottomBits))

/-- The creation inputs of a pool: the four fields entering the id, plus
fields (side, strength) that do not. -/
structure PoolFields where
  timeframe : String
  createdAtSecs : Nat
  topBits : Nat
  bottomBits : Nat
  side : Side
  strength : ℚ
deriving DecidableEq

/-- Id of a pool generated from its creation fields. -/
def poolIdOf (p : PoolFields) : String :=
  generate_pool_id p.timeframe p.createdAtSecs p.topBits p.bottomBits

/-- C7 counterexample: two distinct pools - both at H1 and the same
creation instant 2024-01-01T10:00:00Z, with price bands (524288.0, 2.0) and
(131072.0, 8.0) given as IEEE-754 bit patterns, each with top > bottom -
receive identical generated ids: the 24-bit adler32 truncation collides.
The generated id also contains no "|" separator at all. -/
theorem generate_pool_id_collision :
    generate_pool_id "H1" 1704103200 0x4120000000000000 0x4000000000000000 =
        generate_pool_id "H1" 1704103200 0x4100000000000000 0x4020000000000000 ∧
      (0x4120000000000000 : Nat) ≠ 0x4100000000000000 ∧
      (0x4000000000000000 : Nat) < 0x4120000000000000 ∧
      (0x4020000000000000 : Nat) < 0x4100000000000000 ∧
      ∀ c ∈ (generate_pool_id "H1" 1704103200 0x4120000000000000
        0x4000000000000000).toList, c ≠ '|' := by
  refine ⟨by decide, by decide, by decide, by decide, by decide⟩

/-- C7 (amended): pool ids are deterministic - a function of exactly
(timeframe, creation instant, band bit patterns), so pools created from
identical inputs receive the same id whatever their side or strength - and
have the underscore-joined form
`tf + "_" + iso_timestamp + "_" + hex6(adler32(packed fields))`; they are
not globally collision-free (see the counterexample). -/
theorem generate_pool_id_amended :
    (∀ p q : PoolFields, p.timeframe = q.timeframe →
      p.createdAtSecs = q.createdAtSecs → p.topBits = q.topBits →
      p.bottomBits = q.bottomBits → poolIdOf p = poolIdOf q) ∧
    ∀ tf s a b, generate_pool_id tf s a b =
      tf ++ "_" ++ isoTimestamp s ++ "_" ++
        hex6 (adler32 (packPoolFields tf s a b)) := by
  constructor
  · intro p q h1 h2 h3 h4
    unfold poolIdOf
    rw [h1, h2, h3, h4]
  · intro tf s a b
    rfl

/-- Pool creation inputs for the C7 witness (bullish side). -/
def c7a : PoolFields :=
  ⟨"H1", 1704103200, 0x4120000000000000, 0x4000000000000000, Side.bullish, 1⟩

/-- Same creation inputs with a different side and strength. -/
def c7b : PoolFields :=
  ⟨"H1", 1704103200, 0x4120000000000000, 0x4000000000000000, Side.bearish, mkRat 1 2⟩

/-- Witness for the amended C7: identical creation inputs give identical
ids even across differing side and strength. -/
theorem generate_pool_id_amended_witness : poolIdOf c7a = poolIdOf c7b :=
  generate_pool_id_amended.1 c7a c7b rfl rfl rfl rfl

/-- FVG config of scenario S2: min_gap_atr 0.3, min_gap_pct 0,
min_rel_vol 1.2. -/
def c5Cfg : FVGConfig := ⟨mkRat 3 10, 0, mkRat 12 10⟩

/-- B1 of scenario S2: high 110. -/
def c5B1 : Candle := ⟨3600, 109, 110, 108, 109, 1000⟩

/-- B2 of scenario S2: bullish body 110 -> 112, volume 3x the SMA. -/
def c5B2 : Candle := ⟨7200, 110, 112, 109, 112, 3000⟩

/-- B3 of scenario S2: low 114. -/
def c5B3 : Candle := ⟨10800, 114, 115, 114, 115, 1000⟩

/-- Witness for C5 at scenario S2 (atr 1, volume SMA 1000): a bullish pool
candidate with band [110, 114] is emitted. -/
theorem fvg_bullish_characterization_witness :
    ∃ e, (fvgStep c5Cfg 60 1 1000 [c5B1, c5B2] c5B3).2 = some e ∧
      e.side = Side.bullish ∧ e.top = c5B3.low ∧ e.bottom = c5B1.high :=
  (fvg_bullish_characterization c5Cfg 60 1 1000 c5B1 c5B2 c5B3).mpr
    (by with_unfolding_all decide)
